import Mathlib

/-!
Verification of the noui micro-framework (src/noui.js, src/unnamed/part_000)
against its natural-language specification.

The JavaScript source is shallowly embedded: JS objects used as state
mappings become association lists `List (String × α)` (polymorphic in the
value type, since JS is untyped and each scenario instantiates the values it
needs); object spread `\x7b ...base, ...patch \x7d` becomes `merge`; the
middleware chain of `createStore`'s `setState` becomes a fold over the
middleware list; subscriber notification becomes the list of
(listener id, delivered state) events produced by one call.
-/

/-- A JS object used as a state snapshot or patch: an insertion-ordered
association list from string keys to values. -/
abbrev JsObj (α : Type) : Type := List (String × α)

/-- Shallow merge, the embedding of JS object spread `\x7b ...base, ...patch \x7d`:
every key of `base` keeps its position, with its value overridden when the
key also occurs in `patch`; keys of `patch` absent from `base` are appended
in patch order. One level deep only: values are replaced wholesale. -/
def merge (base patch : JsObj α) : JsObj α :=
  base.map (fun kv => match patch.lookup kv.1 with
    | some w => (kv.1, w)
    | none => kv)
  ++ patch.filter (fun kv => (base.lookup kv.1).isNone)

/-- The argument of `setState` in src/noui.js line 146: either a patch object
or a function of the current state (the source branches on
`typeof partial === function`). -/
inductive SetArg (α : Type) where
  | obj (p : JsObj α)
  | fn (f : JsObj α → JsObj α)

/-- Resolution of the `setState` argument, src/noui.js line 147:
`typeof partial === function ? partial(state) : partial`. -/
def resolveArg (a : SetArg α) (state : JsObj α) : JsObj α :=
  match a with
  | .obj p => p
  | .fn f => f state

/-- A middleware, src/noui.js lines 153-166: it observes the running state
(`getState`) and the pending patch (`nextState`) and returns either a
replacement patch or nothing. JS returns a patch object (truthy) or
`undefined` (falsy), so the `if (result)` test in the source is exactly the
`Option` match. The `ctx.setState` escape hatch is not exercised by any
middleware of the repository (logger and persist both just return
`nextState`) nor by any claim, so a middleware is a pure interceptor here. -/
abbrev Middleware (α : Type) : Type := JsObj α → JsObj α → Option (JsObj α)

/-- One iteration of the `middlewares.forEach` body, src/noui.js lines
153-166, acting on the pair (currentState, update): when the middleware
returns `result`, the source sets `update = result` and then
`currentState = \x7b ...currentState, ...update \x7d`; otherwise both carry
forward unchanged. -/
def mwStep (acc : JsObj α × JsObj α) (mw : Middleware α) : JsObj α × JsObj α :=
  match mw acc.1 acc.2 with
  | some result => (merge acc.1 result, result)
  | none => acc

/-- `setState` of the store returned by `createStore`, src/noui.js lines
146-170, together with the notification it performs: given the middleware
chain, the set of subscribed listeners (as a list of distinct listener ids),
the current committed state and the call argument, it returns the new
committed state and the list of (listener, delivered state) notification
events, in order. -/
def setState (mws : List (Middleware α)) (listeners : List Nat)
    (state : JsObj α) (arg : SetArg α) : JsObj α × List (Nat × JsObj α) :=
  let nextState := resolveArg arg state
  -- source line 148 computes `newState = \x7b ...state, ...nextState \x7d` and never uses it
  let _newState := merge state nextState
  let chain := mws.foldl mwStep (state, nextState)
  let state' := merge state chain.2
  (state', listeners.map (fun l => (l, state')))

/-- Modelled from the spec, section 4.2, for comparison with `setState`:
thread the pending patch through the chain sequentially, a returned value
becoming the pending patch and being merged into the running state
immediately, a middleware returning nothing leaving both unchanged; the
final pending patch is then merged onto the original pre-update state and
every subscriber is notified with the full new state. -/
def specChain (mws : List (Middleware α)) (running pending : JsObj α) : JsObj α :=
  match mws with
  | [] => pending
  | mw :: rest =>
    match mw running pending with
    | some v => specChain rest (merge running v) v
    | none => specChain rest running pending

/-- Modelled from the spec, section 4.2: the full resolution order of one
`setState` call as the spec words it. -/
def specSetState (mws : List (Middleware α)) (listeners : List Nat)
    (state : JsObj α) (arg : SetArg α) : JsObj α × List (Nat × JsObj α) :=
  let pending := resolveArg arg state
  let final := specChain mws state pending
  let committed := merge state final
  (committed, listeners.map (fun l => (l, committed)))

/-- `setState` of the older `createStore` variant, src/unnamed/part_000
lines 116-120: no middleware chain; resolve the argument, merge it onto the
state, notify every listener unconditionally. -/
def setStateV0 (listeners : List Nat) (state : JsObj α) (arg : SetArg α) :
    JsObj α × List (Nat × JsObj α) :=
  let nextState := resolveArg arg state
  let state' := merge state nextState
  (state', listeners.map (fun l => (l, state')))

/-- A middleware that may throw, for the failure-semantics analysis of the
chain in src/noui.js lines 153-166: a JS exception is `Except.error ()`. -/
abbrev MiddlewareE (α : Type) : Type :=
  JsObj α → JsObj α → Except Unit (Option (JsObj α))

/-- The `middlewares.forEach` loop of src/noui.js lines 153-166 with
exceptions made explicit: the body has no try/catch, so a throw aborts the
loop and propagates. Acts on the (currentState, update) pair as `mwStep`. -/
def chainE (mws : List (MiddlewareE α)) (acc : JsObj α × JsObj α) :
    Except Unit (JsObj α × JsObj α) :=
  match mws with
  | [] => .ok acc
  | mw :: rest =>
    match mw acc.1 acc.2 with
    | .error e => .error e
    | .ok (some result) => chainE rest (merge acc.1 result, result)
    | .ok none => chainE rest acc

/-- `setState` of src/noui.js lines 146-170 with middleware exceptions made
explicit: the commit on line 168 and the notification loop on line 169 run
strictly after the `forEach`, so a propagating exception reaches the caller
before any commit or notification happens. -/
def setStateE (mws : List (MiddlewareE α)) (listeners : List Nat)
    (state : JsObj α) (arg : SetArg α) :
    Except Unit (JsObj α × List (Nat × JsObj α)) :=
  let nextState := resolveArg arg state
  match chainE mws (state, nextState) with
  | .error e => .error e
  | .ok chain =>
    let state' := merge state chain.2
    .ok (state', listeners.map (fun l => (l, state')))

/-- The setter of the reactive cell returned by `NoUI.createState`,
src/noui.js lines 126-131: given the current value, the assigned value and
the subscribed listeners (distinct listener ids), it returns the value after
the assignment and the (listener, delivered value) notification events.
The source guards with `if (newValue !== value)`; JS strict inequality on
the primitive values the cell holds is decidable equality. -/
def cellSet [DecidableEq α] (value newValue : α) (listeners : List Nat) :
    α × List (Nat × α) :=
  if newValue ≠ value then
    (newValue, listeners.map (fun l => (l, newValue)))
  else
    (value, [])

/-- The setter of the reactive cell of the older variant,
src/unnamed/part_000 lines 99-102: no equality guard, the assignment always
happens and every listener is always notified. -/
def cellSetV0 (value newValue : α) (listeners : List Nat) :
    α × List (Nat × α) :=
  let _ := value
  (newValue, listeners.map (fun l => (l, newValue)))

/-- A DOM element as the component lifecycle sees it: an identity, a tag
name, and the `_rendered` expando flag of src/noui.js lines 93-95. -/
structure DNode where
  id : Nat
  tag : String
  rendered : Bool
deriving DecidableEq

/-- A render invocation event: (render-function id, node id). -/
abbrev RenderEvent : Type := Nat × Nat

/-- The inner `elements.forEach` of `scanComponents`, src/noui.js lines
92-97, for one registered entry: walk the document's nodes; each node whose
tag matches the query and whose `_rendered` flag is unset gets rendered
(one event) and its flag set; every other node is untouched. -/
def renderPass (name : String) (cid : Nat) : List DNode → List DNode × List RenderEvent
  | [] => ([], [])
  | n :: rest =>
    let (rest', evs) := renderPass name cid rest
    if n.tag = name ∧ n.rendered = false then
      ({ n with rendered := true } :: rest', (cid, n.id) :: evs)
    else
      (n :: rest', evs)

/-- `scanComponents`, src/noui.js lines 88-99: iterate the registered
components map (insertion-ordered list of (tag name, render-function id))
and run a `renderPass` for each entry over the current document, threading
the document through (a pass sees the flags set by earlier passes). -/
def scanComponents : List (String × Nat) → List DNode → List DNode × List RenderEvent
  | [], doc => (doc, [])
  | (name, cid) :: rest, doc =>
    let (doc1, evs1) := renderPass name cid doc
    let (doc2, evs2) := scanComponents rest doc1
    (doc2, evs1 ++ evs2)

/-- The `connectedCallback` of the element class defined by
`registerComponent`, src/noui.js lines 80-84: it calls `component.render(this)`
and nothing else — it neither consults nor sets the `_rendered` flag. The
node is returned unchanged together with the render event. -/
def connectedCallback (cid : Nat) (n : DNode) : DNode × List RenderEvent :=
  (n, [(cid, n.id)])

/-- A mutation record of the batch delivered to `handleMutations`: only its
`addedNodes` list matters to the source. -/
structure MutationRecord where
  addedNodes : List Nat
deriving DecidableEq

/-- `handleMutations`, src/noui.js lines 101-108, counting how many times
the body calls `this.scanComponents()`: the `mutations.forEach` tests
`mutation.addedNodes.length` (truthy iff nonzero) per record and triggers
one scan for each record that passes. -/
def handleMutations : List MutationRecord → Nat
  | [] => 0
  | m :: rest =>
    (if m.addedNodes.length ≠ 0 then 1 else 0) + handleMutations rest

/-- State of the component registration machinery: the `this.components` JS
Map of src/noui.js line 4 (insertion-ordered tag name → render-function id)
and the names already defined on the platform's `customElements` registry. -/
structure RegState where
  components : List (String × Nat)
  defined : List String
deriving DecidableEq

/-- `Map.prototype.set`: replace in place when the key is present (keeping
its position), append otherwise. -/
def mapSet (k : String) (v : Nat) : List (String × Nat) → List (String × Nat)
  | [] => [(k, v)]
  | (k', v') :: rest =>
    if k' = k then (k, v) :: rest else (k', v') :: mapSet k v rest

/-- `customElements.define`, modelled from the WHATWG HTML standard
(custom elements, "define" steps 1-3): defining a name that is already
defined throws a NotSupportedError DOMException; otherwise the name is
added to the registry. -/
def ceDefine (name : String) (reg : List String) : Except Unit (List String) :=
  if name ∈ reg then .error () else .ok (reg ++ [name])

/-- `registerComponent`, src/noui.js lines 75-86: lowercase the tag name,
store the render function into `this.components` (line 77), then call
`customElements.define` (line 78). The map update precedes the define call,
so it persists even when define throws; the Bool reports whether an
exception propagated to the caller. -/
def registerComponent (name : String) (cid : Nat) (s : RegState) :
    RegState × Bool :=
  let comps := mapSet name.toLower cid s.components
  match ceDefine name.toLower s.defined with
  | .ok d => ({ components := comps, defined := d }, false)
  | .error _ => ({ components := comps, defined := s.defined }, true)

/-- The document as `renderPage` sees it: selector → list of child node ids,
an association list keyed by the CSS selector that `document.querySelector`
would match. -/
abbrev PageDoc : Type := List (String × List Nat)

/-- Write the children of the element with the given selector. -/
def setChildren (sel : String) (kids : List Nat) : PageDoc → PageDoc
  | [] => []
  | (s, ks) :: rest =>
    if s = sel then (sel, kids) :: rest else (s, ks) :: setChildren sel kids rest

/-- `renderPage`, src/noui.js lines 110-118: despite taking `path` as its
first argument, the body queries the fixed selector "#app"; when that
element exists its children are cleared (`innerHTML = ""`), the component's
render runs on the emptied element (modelled as a function from the
element's children to the children it leaves behind), and one
`scanComponents()` is triggered (the Bool); when no "#app" element exists
nothing at all happens. -/
def renderPage (path : String) (render : List Nat → List Nat) (doc : PageDoc) :
    PageDoc × Bool :=
  let _ := path
  match doc.lookup "#app" with
  | some _ => (setChildren "#app" (render []) doc, true)
  | none => (doc, false)

/-- Middleware used to state the spec's ordering scenario: it rewrites the
pending patch n↦1 to n↦2 and leaves any other patch alone. -/
def mwA : Middleware Int :=
  fun _ p => if p = [("n", 1)] then some [("n", 2)] else none

/-- Middleware used to state the spec's ordering scenario: it adds m↦1 to
the pending patch. -/
def mwB : Middleware Int :=
  fun _ p => some (merge p [("m", 1)])

/-- A fallible middleware used as a concrete interceptor that runs clean:
it returns the pending patch unchanged, as the repository's
`loggerMiddleware` (src/noui.js lines 191-195) does. -/
def loggerMiddlewareE : MiddlewareE Int :=
  fun _ p => .ok (some p)


/-- Every node of the document carrying the given tag has its `_rendered`
flag set. -/
def allRendered (name : String) (doc : List DNode) : Prop :=
  ∀ n ∈ doc, n.tag = name → n.rendered = true

theorem lookup_append (xs ys : JsObj α) (k : String) :
    List.lookup k (xs ++ ys) =
      match List.lookup k xs with
      | some v => some v
      | none => List.lookup k ys := by
  induction xs with
  | nil => simp [List.lookup]
  | cons hd tl ih =>
    obtain ⟨a, b⟩ := hd
    by_cases hk : k = a
    · subst hk
      simp [List.lookup]
    · have hb : (k == a) = false := beq_eq_false_iff_ne.mpr hk
      simp [List.lookup, hb, ih]

theorem lookup_map_override (st patch : JsObj α) (k : String) :
    List.lookup k (st.map (fun kv =>
        match patch.lookup kv.1 with
        | some w => (kv.1, w)
        | none => kv)) =
      match st.lookup k with
      | some v => some (match patch.lookup k with
          | some w => w
          | none => v)
      | none => none := by
  induction st with
  | nil => simp [List.lookup]
  | cons hd tl ih =>
    obtain ⟨a, b⟩ := hd
    by_cases hk : k = a
    · subst hk
      cases hp : patch.lookup k <;> simp [List.lookup, hp]
    · have hb : (k == a) = false := beq_eq_false_iff_ne.mpr hk
      cases hp : patch.lookup a <;>
        simp [List.lookup, hb, hp, ih]

theorem lookup_filter_none (st patch : JsObj α) (k : String) :
    List.lookup k (patch.filter (fun kv => (List.lookup kv.1 st).isNone)) =
      if (List.lookup k st).isNone then patch.lookup k else none := by
  induction patch with
  | nil => simp [List.lookup]
  | cons hd tl ih =>
    obtain ⟨a, b⟩ := hd
    by_cases hk : k = a
    · subst hk
      cases hs : (List.lookup k st).isNone <;>
        simp [List.filter, List.lookup, hs, ih]
    · have hb : (k == a) = false := beq_eq_false_iff_ne.mpr hk
      cases hs : (List.lookup a st).isNone <;>
        cases hs2 : (List.lookup k st).isNone <;>
          simp [List.filter, List.lookup, hb, hs, hs2, ih]

theorem lookup_merge (st patch : JsObj α) (k : String) :
    (merge st patch).lookup k =
      match patch.lookup k with
      | some v => some v
      | none => st.lookup k := by
  unfold merge
  rw [lookup_append, lookup_map_override, lookup_filter_none]
  cases hs : st.lookup k <;> cases hp : patch.lookup k <;> simp [hs, hp]

theorem foldl_mwStep_eq_specChain (mws : List (Middleware α))
    (running pending : JsObj α) :
    (mws.foldl mwStep (running, pending)).2 = specChain mws running pending := by
  induction mws generalizing running pending with
  | nil => rfl
  | cons mw rest ih =>
    simp only [List.foldl_cons, specChain, mwStep]
    cases h : mw running pending <;> simp [h, ih]

theorem renderPass_preserves_allRendered (name name' : String) (cid : Nat)
    (doc : List DNode) (h : allRendered name' doc) :
    allRendered name' (renderPass name cid doc).1 := by
  induction doc with
  | nil => exact h
  | cons n rest ih =>
    have hrest : allRendered name' rest := fun m hm => h m (List.mem_cons_of_mem _ hm)
    have hn := h n (List.mem_cons_self _ _)
    simp only [renderPass]
    by_cases hc : n.tag = name ∧ n.rendered = false
    · simp only [hc, if_pos]
      intro m hm
      rcases List.mem_cons.mp hm with hm | hm
      · subst hm
        intro _
        rfl
      · exact ih hrest m hm
    · simp only [hc, if_neg, not_false_eq_true]
      intro m hm
      rcases List.mem_cons.mp hm with hm | hm
      · subst hm
        exact hn
      · exact ih hrest m hm

theorem renderPass_sets_allRendered (name : String) (cid : Nat)
    (doc : List DNode) :
    allRendered name (renderPass name cid doc).1 := by
  induction doc with
  | nil => intro m hm; cases hm
  | cons n rest ih =>
    simp only [renderPass]
    by_cases hc : n.tag = name ∧ n.rendered = false
    · simp only [hc, if_pos]
      intro m hm
      rcases List.mem_cons.mp hm with hm | hm
      · subst hm
        intro _
        rfl
      · exact ih m hm
    · simp only [hc, if_neg, not_false_eq_true]
      intro m hm
      rcases List.mem_cons.mp hm with hm | hm
      · subst hm
        intro htag
        rcases not_and_or.mp hc with hbad | hbad
        · exact absurd htag hbad
        · exact Bool.not_eq_false _ |>.mp hbad ▸ rfl
      · exact ih m hm

theorem renderPass_noop (name : String) (cid : Nat) (doc : List DNode)
    (h : allRendered name doc) :
    renderPass name cid doc = (doc, []) := by
  induction doc with
  | nil => rfl
  | cons n rest ih =>
    have hrest : allRendered name rest := fun m hm => h m (List.mem_cons_of_mem _ hm)
    have hn := h n (List.mem_cons_self _ _)
    have hc : ¬(n.tag = name ∧ n.rendered = false) := by
      rintro ⟨htag, hflag⟩
      rw [hn htag] at hflag
      cases hflag
    simp [renderPass, hc, ih hrest]

theorem scanComponents_preserves_allRendered (reg : List (String × Nat))
    (name' : String) (doc : List DNode) (h : allRendered name' doc) :
    allRendered name' (scanComponents reg doc).1 := by
  induction reg generalizing doc with
  | nil => exact h
  | cons p rest ih =>
    obtain ⟨name, cid⟩ := p
    simp only [scanComponents]
    exact ih _ (renderPass_preserves_allRendered name name' cid doc h)

theorem scanComponents_sets_allRendered (reg : List (String × Nat))
    (name : String) (cid : Nat) (doc : List DNode)
    (h : (name, cid) ∈ reg) :
    allRendered name (scanComponents reg doc).1 := by
  induction reg generalizing doc with
  | nil => cases h
  | cons p rest ih =>
    obtain ⟨name', cid'⟩ := p
    rcases List.mem_cons.mp h with heq | hmem
    · injection heq with h1 h2
      subst h1
      simp only [scanComponents]
      exact scanComponents_preserves_allRendered rest name _
        (renderPass_sets_allRendered name cid' doc)
    · simp only [scanComponents]
      exact ih ((renderPass name' cid' doc).1) hmem

theorem scanComponents_noop (reg : List (String × Nat)) (doc : List DNode)
    (h : ∀ p ∈ reg, allRendered p.1 doc) :
    scanComponents reg doc = (doc, []) := by
  induction reg with
  | nil => rfl
  | cons p rest ih =>
    obtain ⟨name, cid⟩ := p
    have hhead : allRendered name doc := h (name, cid) (List.mem_cons_self _ _)
    simp only [scanComponents, renderPass_noop name cid doc hhead]
    have := ih (fun q hq => h q (List.mem_cons_of_mem _ hq))
    simp [this]

theorem chainE_append (xs ys : List (MiddlewareE α)) (acc : JsObj α × JsObj α) :
    chainE (xs ++ ys) acc =
      match chainE xs acc with
      | .error e => .error e
      | .ok acc' => chainE ys acc' := by
  induction xs generalizing acc with
  | nil => simp [chainE]
  | cons mw rest ih =>
    simp only [List.cons_append, chainE]
    cases h : mw acc.1 acc.2 with
    | error e => rfl
    | ok r => cases r <;> simp [ih]

/-- C1: for every setState call, the update follows the spec's resolution
order — resolve the argument against the pre-update state, run the
middlewares in caller order with a returned value becoming the pending patch
and being merged into the running state immediately while a silent
middleware changes nothing, then shallow-merge the final pending patch onto
the original pre-update state and notify every subscriber with the full new
state. -/
theorem setState_resolution_order (mws : List (Middleware α))
    (listeners : List Nat) (state : JsObj α) (arg : SetArg α) :
    setState mws listeners state arg = specSetState mws listeners state arg := by
  simp only [setState, specSetState, foldl_mwStep_eq_specChain]

/-- C2: with middlewares [mwA, mwB], where mwA rewrites the pending patch
n↦1 to n↦2 and mwB adds m↦1 to the pending patch, setState of n↦1 from the
empty state commits the state (n↦2, m↦1), in the caller-declared order. -/
theorem middleware_ordering_scenario :
    (setState [mwA, mwB] [] [] (SetArg.obj [("n", 1)])).1 =
      [("n", 2), ("m", 1)] := by decide

/-- C3 counterexample: a throwing middleware makes setState raise to the
caller — the call produces an error, so the update does not commit and no
subscriber is notified, refuting the claimed catch-log-continue behavior. -/
theorem middleware_exception_escapes :
    setStateE (α := Int) [fun _ _ => .error ()] [0] []
      (SetArg.obj [("n", 1)]) = .error () := rfl

/-- C3 amended: the middleware loop has no try/catch — if the chain runs
exception-free up to some middleware and that middleware throws, the
exception propagates out of setState: the state is not committed and no
subscriber is notified. -/
theorem middleware_exception_propagates (mws1 mws2 : List (MiddlewareE α))
    (mwT : MiddlewareE α) (listeners : List Nat) (state : JsObj α)
    (arg : SetArg α) (acc : JsObj α × JsObj α) (e : Unit)
    (h1 : chainE mws1 (state, resolveArg arg state) = .ok acc)
    (h2 : mwT acc.1 acc.2 = .error e) :
    setStateE (mws1 ++ mwT :: mws2) listeners state arg = .error e := by
  simp [setStateE, chainE_append, h1, chainE, h2]

/-- C3 witness: a clean logger middleware followed by a throwing middleware,
from the empty state with two subscribers — setState raises. -/
theorem middleware_exception_propagates_witness :
    setStateE ([loggerMiddlewareE] ++ (fun _ _ => .error ()) :: []) [0, 1] []
      (SetArg.obj [("n", 1)]) = .error () :=
  middleware_exception_propagates [loggerMiddlewareE] []
    (fun _ _ => .error ()) [0, 1] [] (SetArg.obj [("n", 1)])
    ([("n", 1)], [("n", 1)]) () rfl rfl

/-- C4: merging is shallow with one level of depth — from any state,
setState of a↦(x↦1) followed by setState of a↦(y↦2) leaves key a bound to
exactly (y↦2): the nested mapping is replaced wholesale, never deep-merged. -/
theorem merge_depth_shallow (state : JsObj (JsObj Int)) (l1 l2 : List Nat) :
    ((setState [] l2 (setState [] l1 state (SetArg.obj [("a", [("x", 1)])])).1
        (SetArg.obj [("a", [("y", 2)])])).1).lookup "a" = some [("y", 2)] := by
  simp only [setState, List.foldl_nil, resolveArg]
  rw [lookup_merge]
  simp [List.lookup]

/-- C5 counterexample: a node of a registered tag that enters the live tree
is rendered once by the custom-element attachment hook — which neither
checks nor sets the per-node rendered marker — and rendered a second time by
the next scan, so the render function runs twice on the same node, refuting
the claimed exactly-once invariant. -/
theorem connected_then_scan_double_renders :
    (connectedCallback 7 ⟨0, "x-a", false⟩).2 ++
      (scanComponents [("x-a", 7)]
        [(connectedCallback 7 ⟨0, "x-a", false⟩).1]).2 =
      [(7, 0), (7, 0)] := by decide

/-- C5 amended: the rendered marker makes scanning idempotent — scan renders
only unmarked matching nodes and marks them, so a second scan over the
scanned document renders nothing and changes nothing; the exactly-once
guarantee holds across repeated scans but not for a node first rendered by
the custom-element attachment hook, which bypasses the marker. -/
theorem scan_idempotent (reg : List (String × Nat)) (doc : List DNode) :
    scanComponents reg (scanComponents reg doc).1 =
      ((scanComponents reg doc).1, []) := by
  apply scanComponents_noop
  intro p hp
  obtain ⟨name, cid⟩ := p
  exact scanComponents_sets_allRendered reg name cid doc hp

/-- C6 counterexample: a mutation batch of two records, each with one added
node, triggers two scans — not the single coalesced scan the claim
requires. -/
theorem multi_record_batch_scans_twice :
    handleMutations [⟨[1]⟩, ⟨[2]⟩] = 2 ∧
    handleMutations [⟨[1]⟩, ⟨[2]⟩] ≠ 1 := by decide

/-- C6 amended: the handler triggers one scan per mutation record that
contains at least one added node (so a single record with many additions
still yields one scan), and a batch with no added nodes at all triggers
zero scans. -/
theorem scan_count_per_record (muts : List MutationRecord) :
    handleMutations muts =
      (muts.filter (fun m => m.addedNodes.length != 0)).length ∧
    (handleMutations muts = 0 ↔ ∀ m ∈ muts, m.addedNodes = []) := by
  have hlen : ∀ muts' : List MutationRecord,
      handleMutations muts' =
        (muts'.filter (fun m => m.addedNodes.length != 0)).length := by
    intro muts'
    induction muts' with
    | nil => rfl
    | cons m rest ih =>
      by_cases hm : m.addedNodes.length = 0
      · have hb : (m.addedNodes.length != 0) = false := by simp [hm]
        simp [handleMutations, List.filter, hm, hb, ih]
      · have hb : (m.addedNodes.length != 0) = true := by simp [hm]
        simp only [handleMutations, List.filter, hb, ih, List.length_cons,
          if_pos hm]
        omega
  refine ⟨hlen muts, ?_⟩
  rw [hlen muts]
  simp [List.length_eq_zero, List.filter_eq_nil_iff, List.length_eq_zero]

/-- C7 counterexample: the createState variant of src/unnamed/part_000 has
no equality guard — writing the current value back to the cell still
notifies the subscribed listener, refuting the claimed zero-notification
behavior for every cell of the repository. -/
theorem cellSetV0_notifies_on_equal_write :
    cellSetV0 (0 : Int) 0 [5] = (0, [(5, 0)]) := by decide

/-- C7 amended: for cells created by the createState of src/noui.js, setting
a value strictly equal to the current one notifies nobody and setting a
strictly different one notifies every current listener exactly once with
the new value; the older variant in src/unnamed/part_000 instead assigns
and notifies every listener unconditionally, equal write or not. -/
theorem cell_notification_discipline {α : Type} [DecidableEq α] (v x : α)
    (listeners : List Nat) :
    (x = v → cellSet v x listeners = (v, [])) ∧
    (x ≠ v → cellSet v x listeners = (x, listeners.map (fun l => (l, x)))) ∧
    cellSetV0 v x listeners = (x, listeners.map (fun l => (l, x))) := by
  refine ⟨fun h => by simp [cellSet, h], fun h => by simp [cellSet, h], rfl⟩

/-- C7 witness: the discipline at concrete inputs — an equal write notifies
nobody, a changed write notifies both listeners once, and the older variant
notifies on an equal write. -/
theorem cell_notification_discipline_witness :
    cellSet (0 : Int) 0 [3, 4] = (0, []) ∧
    cellSet (0 : Int) 1 [3, 4] = (1, [(3, 1), (4, 1)]) ∧
    cellSetV0 (7 : Int) 7 [3, 4] = (7, [(3, 7), (4, 7)]) :=
  ⟨(cell_notification_discipline 0 0 [3, 4]).1 rfl,
   (cell_notification_discipline 0 1 [3, 4]).2.1 (by decide),
   (cell_notification_discipline 7 7 [3, 4]).2.2⟩

theorem lookup_mapSet (k : String) (v : Nat) (m : List (String × Nat)) :
    List.lookup k (mapSet k v m) = some v := by
  induction m with
  | nil => simp [mapSet, List.lookup]
  | cons hd tl ih =>
    obtain ⟨k', v'⟩ := hd
    by_cases hk : k' = k
    · subst hk
      simp [mapSet, List.lookup]
    · have hb : (k == k') = false :=
        beq_eq_false_iff_ne.mpr (fun h => hk h.symm)
      simp [mapSet, hk, List.lookup, hb, ih]

theorem registerComponent_components (name : String) (cid : Nat) (s : RegState) :
    (registerComponent name cid s).1.components =
      mapSet name.toLower cid s.components := by
  unfold registerComponent
  cases h : ceDefine name.toLower s.defined <;> rfl

theorem registerComponent_defines (name : String) (cid : Nat) (s : RegState) :
    name.toLower ∈ (registerComponent name cid s).1.defined := by
  unfold registerComponent ceDefine
  by_cases hm : name.toLower ∈ s.defined
  · simp [hm]
  · simp [hm]

theorem registerComponent_throws (name : String) (cid : Nat) (s : RegState)
    (h : name.toLower ∈ s.defined) :
    (registerComponent name cid s).2 = true := by
  unfold registerComponent ceDefine
  simp [h]

/-- C8 counterexample: registering the same tag a second time raises —
`customElements.define` throws on an already-defined name, and the source
does not catch it, refuting the claim that re-registration never raises. -/
theorem duplicate_registration_throws :
    (registerComponent "x-a" 2 (registerComponent "x-a" 1 ⟨[], []⟩).1).2 =
      true := by
  simp [registerComponent, ceDefine, mapSet]

/-- C8 amended: re-registering a tag replaces the stored render function in
the components map before the define call, so future scans use the new
function and already-rendered nodes are not re-rendered (a scan over a
fully-rendered document does nothing); but the second
`customElements.define` call throws on the already-defined name and that
error propagates to the caller. -/
theorem duplicate_registration_last_write_wins (name : String) (c1 c2 : Nat)
    (s : RegState) (doc : List DNode) (h : ∀ n ∈ doc, n.rendered = true) :
    (registerComponent name c2 (registerComponent name c1 s).1).2 = true ∧
    List.lookup name.toLower
      (registerComponent name c2
        (registerComponent name c1 s).1).1.components = some c2 ∧
    scanComponents
      (registerComponent name c2
        (registerComponent name c1 s).1).1.components doc = (doc, []) := by
  refine ⟨?_, ?_, ?_⟩
  · exact registerComponent_throws name c2 _ (registerComponent_defines name c1 s)
  · rw [registerComponent_components, lookup_mapSet]
  · exact scanComponents_noop _ doc (fun p _ n hn _ => h n hn)

/-- C8 witness: the amended behavior at a concrete registration — the tag
registered twice, one already-rendered matching node. -/
theorem duplicate_registration_last_write_wins_witness :
    (registerComponent "no-header" 2
      (registerComponent "no-header" 1 ⟨[], []⟩).1).2 = true ∧
    List.lookup "no-header".toLower
      (registerComponent "no-header" 2
        (registerComponent "no-header" 1 ⟨[], []⟩).1).1.components = some 2 ∧
    scanComponents
      (registerComponent "no-header" 2
        (registerComponent "no-header" 1 ⟨[], []⟩).1).1.components
      [⟨0, "no-header".toLower, true⟩] =
      ([⟨0, "no-header".toLower, true⟩], []) :=
  duplicate_registration_last_write_wins "no-header" 1 2 ⟨[], []⟩
    [⟨0, "no-header".toLower, true⟩]
    (by intro n hn; rw [List.mem_singleton] at hn; subst hn; rfl)

/-- C9 counterexample: with both an "#app" element and an "#other" element
present, renderPage called with the selector "#other" clears the children
of "#app" and leaves the children of "#other" untouched — the element
matched by the caller's selector is not cleared, refuting the claim. -/
theorem renderPage_ignores_selector :
    List.lookup "#other"
      (renderPage "#other" id [("#app", [1]), ("#other", [2])]).1 =
        some [2] ∧
    List.lookup "#other"
      (renderPage "#other" id [("#app", [1]), ("#other", [2])]).1 ≠
        some [] ∧
    List.lookup "#app"
      (renderPage "#other" id [("#app", [1]), ("#other", [2])]).1 =
        some [] := by decide

/-- C9 amended: renderPage ignores its first argument and always targets
the element matching "#app": when that element exists its children are
cleared, the component renders into the emptied element and one scan is
triggered; when no "#app" element exists the call is a no-op that raises
no error and changes nothing. -/
theorem renderPage_targets_app (p1 p2 : String)
    (render : List Nat → List Nat) (doc : PageDoc) :
    renderPage p1 render doc = renderPage p2 render doc ∧
    (doc.lookup "#app" = none → renderPage p1 render doc = (doc, false)) ∧
    (∀ ks, doc.lookup "#app" = some ks →
      renderPage p1 render doc =
        (setChildren "#app" (render []) doc, true)) := by
  refine ⟨rfl, fun h => by simp [renderPage, h], fun ks h => by simp [renderPage, h]⟩

/-- C9 witness: the amended behavior at concrete documents — a document
without "#app" is untouched with no scan, a document with "#app" has its
children replaced by the component's output with one scan. -/
theorem renderPage_targets_app_witness :
    renderPage "/about" id [("#other", [2])] = ([("#other", [2])], false) ∧
    renderPage "/about" (fun _ => [9]) [("#app", [1])] =
      (setChildren "#app" ((fun _ => [9]) ([] : List Nat)) [("#app", [1])], true) :=
  ⟨(renderPage_targets_app "/about" "#x" id [("#other", [2])]).2.1 rfl,
   (renderPage_targets_app "/about" "#x" (fun _ => [9]) [("#app", [1])]).2.2
     [1] rfl⟩

/-- C10: every setState call notifies each currently subscribed listener
exactly once with the committed state — there is no change detection before
the notification loop, so this holds even when the committed state equals
the previous state (empty patch or rewriting of existing values), in both
the middleware store of src/noui.js and the older store of
src/unnamed/part_000. -/
theorem setState_always_notifies (mws : List (Middleware α))
    (listeners : List Nat) (state : JsObj α) (arg : SetArg α) :
    (setState mws listeners state arg).2 =
      listeners.map (fun l => (l, (setState mws listeners state arg).1)) ∧
    (setStateV0 listeners state arg).2 =
      listeners.map (fun l => (l, (setStateV0 listeners state arg).1)) :=
  ⟨rfl, rfl⟩

/-- C6 witness: the amended count at concrete batches — one record with two
added nodes yields one scan, and a batch whose single record adds nothing
yields zero scans. -/
theorem scan_count_per_record_witness :
    handleMutations [⟨[1, 2]⟩] = 1 ∧
    handleMutations [(⟨[]⟩ : MutationRecord)] = 0 :=
  ⟨(scan_count_per_record [⟨[1, 2]⟩]).1.trans (by decide),
   (scan_count_per_record [(⟨[]⟩ : MutationRecord)]).2.mpr (by simp)⟩
